import Mathlib

/-!
Shallow embedding of `train_eval.py` (homograph disambiguation lab).

Modelling conventions:
* A sentence is represented by its UTF-8 byte list (`List Nat`); the
  `sentence.encode("utf8")` call at line 39 is the identity in this
  representation, and `bytes.decode("utf8")` at line 43 is folded into the
  abstract tokenizer, which is passed explicitly
  (`tokenize : List Nat → List String` models `decode` followed by
  `nltk.word_tokenize`, an external dependency of the program).
* Python string predicates (`str.isnumeric`, `str.isupper`, `str.islower`,
  `str.istitle`, `str.casefold`) are modelled over the ASCII cased/digit
  alphabet, which is the fragment the claims exercise.
* Machine integers are `Nat`/`Int`; byte offsets are `Nat` (corpus rows carry
  non-negative offsets).
* The `assert` failure at line 52 is modelled as the
  `ExtractError.TargetNotFoundError` value of an `Except` result.
-/

/-- Models Python `str.casefold` (line 31), restricted to ASCII letters:
lowercases every character. -/
def pyCasefold (s : String) : String :=
  String.mk (s.toList.map Char.toLower)

/-- Models Python `str.isnumeric` (line 31) on the ASCII digit alphabet: true
iff the string is nonempty and every character is a digit. -/
def pyIsNumeric (s : String) : Bool :=
  !s.toList.isEmpty && s.toList.all Char.isDigit

/-- Models Python `str.isupper` (line 63) on ASCII: at least one cased
character and no lowercase character. -/
def pyIsUpper (s : String) : Bool :=
  s.toList.any Char.isUpper && s.toList.all (fun c => !c.isLower)

/-- Models Python `str.islower` (line 65) on ASCII: at least one cased
character and no uppercase character. -/
def pyIsLower (s : String) : Bool :=
  s.toList.any Char.isLower && s.toList.all (fun c => !c.isUpper)

/-- Helper for `pyIsTitle`: walks the characters carrying whether the previous
character was cased and whether a cased character has been seen. -/
def istitleAux : List Char → Bool → Bool → Bool
  | [], _, seenCased => seenCased
  | c :: cs, prevCased, seenCased =>
    if c.isUpper then
      if prevCased then false else istitleAux cs true true
    else if c.isLower then
      if prevCased then istitleAux cs true true else false
    else
      istitleAux cs false seenCased

/-- Models Python `str.istitle` (line 67) on ASCII: uppercase characters may
only follow uncased characters, lowercase characters may only follow cased
ones, and at least one cased character occurs. -/
def pyIsTitle (s : String) : Bool :=
  istitleAux s.toList false false

/-- Embeds `_token_feature` (lines 24-31).  The index is an `Int` because the
callers pass `t - 1`, `t - 2` which may be negative.  The guarded list access
`tokens[index]` is rendered with `List.getD`; the guards make the default
unreachable (proved in the safety theorem below). -/
def _token_feature (tokens : List String) (index : Int) : String :=
  if index < 0 then "[$]"
  else if (tokens.length : Int) ≤ index then "[^]"
  else
    let token := tokens.getD index.toNat ""
    if pyIsNumeric token then "[NUMERIC]" else pyCasefold token

/-- Embeds lines 39-43: the UTF-8 byte string
`sentence_b[:start] + b"^" + sentence_b[start:end] + b"^" + sentence_b[end:]`.
`94` is the byte of the delimiter character `^`. -/
def markedBytes (sentence_b : List Nat) (start stop : Nat) : List Nat :=
  sentence_b.take start ++ ([94] ++ (sentence_b.drop start).take (stop - start) ++ [94])
    ++ sentence_b.drop stop

/-- Models Python `token.count("^")` (line 49): number of delimiter
characters in a token. -/
def caretCount (s : String) : Nat :=
  s.toList.count (Char.ofNat 94)

/-- Embeds the search loop of lines 47-51: index of the first token containing
exactly two delimiter characters, `none` when the loop leaves `t == -1`. -/
def findTarget : List String → Option Nat
  | [] => none
  | token :: rest =>
    if caretCount token = 2 then some 0
    else (findTarget rest).map (fun i => i + 1)

/-- Failure taxonomy of the extractor: the `assert` at line 52, which the
specification names `TargetNotFoundError`. -/
inductive ExtractError where
  | TargetNotFoundError : String → ExtractError
deriving DecidableEq

/-- Embeds line 53: `tokens[t].replace("_", "")`.  With a one-character
pattern, Python `replace` deletes every occurrence, i.e. filters the
character out.  Only underscores are removed; the delimiter characters are
kept. -/
def cleanTarget (tokens : List String) (t : Nat) : String :=
  String.mk ((tokens.getD t "").toList.filter (fun c => !(c == Char.ofNat 95)))

/-- Embeds the `if`/`elif` chain of lines 63-70 classifying the target's
capitalization. -/
def capClass (target : String) : String :=
  if pyIsUpper target then "upper"
  else if pyIsLower target then "lower"
  else if pyIsTitle target then "title"
  else "na"

/-- Embeds lines 54-71: the feature dictionary, as an association list in the
insertion order of the Python `dict`.  Note line 60 joins `t-2` with itself. -/
def buildFeatures (tokens : List String) (t : Nat) : List (String × String) :=
  let target := cleanTarget tokens t
  let fm1 := _token_feature tokens ((t : Int) - 1)
  let fm2 := _token_feature tokens ((t : Int) - 2)
  let fp1 := _token_feature tokens ((t : Int) + 1)
  let fp2 := _token_feature tokens ((t : Int) + 2)
  [("t-1", fm1), ("t-2", fm2), ("t+1", fp1), ("t+2", fp2),
   ("t-2^t+1", fm2 ++ "^" ++ fm2),
   ("t+1^t+2", fp1 ++ "^" ++ fp2),
   ("t-1^t+1", fm1 ++ "^" ++ fp1),
   ("cap(t)", capClass target)]

/-- Embeds `extract_features` (lines 34-71).  `tokenize` is the external
tokenizer capability (utf-8 decoding folded in); `sentence_b` is the sentence's
UTF-8 byte list; `stop` renders the Python parameter `end` (a Lean keyword). -/
def extract_features (tokenize : List Nat → List String) (sentence_b : List Nat)
    (homograph : String) (start stop : Nat) :
    Except ExtractError (List (String × String)) :=
  let tokens := tokenize (markedBytes sentence_b start stop)
  match findTarget tokens with
  | none => Except.error (ExtractError.TargetNotFoundError homograph)
  | some t => Except.ok (buildFeatures tokens t)

/-- A corpus row as produced by the external TSV reader (lines 79-87);
`stop` renders the column `end`. -/
structure Row where
  sentence : List Nat
  homograph : String
  start : Nat
  stop : Nat
  wordid : String

/-- Embeds `extract_features_file` (lines 74-89): one feature vector and one
label per row, in reader order; a failing row aborts the pass with its error
(the Python exception discards the partial lists). -/
def extract_features_file (tokenize : List Nat → List String) :
    List Row → Except ExtractError (List (List (String × String)) × List String)
  | [] => Except.ok ([], [])
  | row :: rest =>
    match extract_features tokenize row.sentence row.homograph row.start row.stop with
    | Except.error e => Except.error e
    | Except.ok fv =>
      match extract_features_file tokenize rest with
      | Except.error e => Except.error e
      | Except.ok (fvs, labels) => Except.ok (fv :: fvs, row.wordid :: labels)

/-- Embeds line 118: `sum(correct) / sum(size)` over the parallel per-file
lists built in `main`, in exact rational arithmetic. -/
def microAccuracy (correct size : List Nat) : Rat :=
  ((correct.sum : Rat)) / ((size.sum : Rat))

/-- Embeds line 119: the generator `(c / s for (c, s) in zip(correct, size))`. -/
def perFileAccuracies (correct size : List Nat) : List Rat :=
  (correct.zip size).map (fun p => ((p.1 : Rat)) / ((p.2 : Rat)))

/-- Models Python `statistics.mean` (line 120): sum divided by count. -/
def pyMean (xs : List Rat) : Rat :=
  xs.sum / ((xs.length : Rat))

/-- Embeds line 120: the macro-average accuracy reported by `main`. -/
def meanAccuracy (correct size : List Nat) : Rat :=
  pyMean (perFileAccuracies correct size)

/-- Modelled from the spec: step 4 of the extraction algorithm as worded,
"stripping the delimiter characters and any tokenizer-inserted word-joining
artifact characters" — removing both `^` (byte 94) and `_` (byte 95), where
the code removes only `_`. -/
def specCleanTarget (token : String) : String :=
  String.mk ((token.toList.filter (fun c => !(c == Char.ofNat 94))).filter
    (fun c => !(c == Char.ofNat 95)))

/-- Modelled from the spec: the capitalization classification chain as worded —
"upper" if all cased characters are uppercase, "lower" if all are lowercase,
"title" if title-cased, else "na" (over ASCII, cased-all-upper is
no-lowercase). -/
def specCapClass (form : String) : String :=
  if form.toList.all (fun c => !c.isLower) then "upper"
  else if form.toList.all (fun c => !c.isUpper) then "lower"
  else if pyIsTitle form then "title"
  else "na"

/-- A constant tokenizer, used to instantiate the abstract tokenizer on
concrete scenarios. -/
def constTok (tokens : List String) : List Nat → List String :=
  fun _ => tokens

/-- A tokenizer keeping the marker intact on short byte strings and splitting
it away on longer ones, used to build a corpus pass that fails on its second
row. -/
def twoTok : List Nat → List String :=
  fun bs => if bs.length ≤ 2 then ["^a^"] else ["plain"]

/-- Concrete corpus row whose extraction succeeds under `twoTok`. -/
def rowA : Row :=
  ⟨[], "a", 0, 0, "w1"⟩

/-- Concrete corpus row whose extraction fails under `twoTok`. -/
def rowB : Row :=
  ⟨[97, 97, 97], "b", 0, 3, "w2"⟩

/-! Helper lemmas shared by the claim theorems. -/

theorem insertIdx_take_drop (l : List Nat) (n : Nat) (h : n ≤ l.length) :
    List.insertIdx n 94 l = l.take n ++ 94 :: l.drop n := by
  induction l generalizing n with
  | nil =>
    simp at h
    subst h
    rfl
  | cons b bs ih =>
    cases n with
    | zero => rfl
    | succ n => simp [List.insertIdx_succ_cons, ih n (by simpa using h)]

theorem findTarget_eq_none_iff (tokens : List String) :
    findTarget tokens = none ↔ ∀ tok ∈ tokens, caretCount tok ≠ 2 := by
  induction tokens with
  | nil => simp [findTarget]
  | cons tok rest ih =>
    by_cases hc : caretCount tok = 2
    · simp [findTarget, hc]
    · simp [findTarget, hc, ih]

theorem findTarget_spec :
    ∀ (tokens : List String) (t : Nat), findTarget tokens = some t →
      t < tokens.length ∧ caretCount (tokens.getD t "") = 2 ∧
        ∀ j, j < t → caretCount (tokens.getD j "") ≠ 2
  | [], t, h => by simp [findTarget] at h
  | tok :: rest, t, h => by
    by_cases hc : caretCount tok = 2
    · simp [findTarget, hc] at h
      subst h
      exact ⟨by simp, by simpa using hc, fun j hj => by omega⟩
    · simp [findTarget, hc] at h
      obtain ⟨a, ha, rfl⟩ := h
      obtain ⟨h1, h2, h3⟩ := findTarget_spec rest a ha
      refine ⟨by simpa using h1, by simpa using h2, ?_⟩
      intro j hj
      cases j with
      | zero => simpa using hc
      | succ j => simpa using h3 j (by omega)

theorem extract_features_eq_ok_iff (tokenize : List Nat → List String) (s : List Nat)
    (hg : String) (a b : Nat) (fv : List (String × String)) :
    extract_features tokenize s hg a b = Except.ok fv ↔
      ∃ t, findTarget (tokenize (markedBytes s a b)) = some t ∧
        fv = buildFeatures (tokenize (markedBytes s a b)) t := by
  unfold extract_features
  cases hft : findTarget (tokenize (markedBytes s a b)) with
  | none => simp [hft]
  | some t => simp [hft, eq_comm]

theorem token_feature_of_neg (tokens : List String) (i : Int) (hneg : i < 0) :
    _token_feature tokens i = "[$]" := by
  simp only [_token_feature, if_pos hneg]

theorem token_feature_of_ge (tokens : List String) (i : Int)
    (hneg : ¬ i < 0) (hbig : (tokens.length : Int) ≤ i) :
    _token_feature tokens i = "[^]" := by
  simp only [_token_feature, if_neg hneg, if_pos hbig]

theorem token_feature_in_range (tokens : List String) (i : Int)
    (hneg : ¬ i < 0) (hbig : ¬ (tokens.length : Int) ≤ i) :
    _token_feature tokens i =
      if pyIsNumeric (tokens.getD i.toNat "") then "[NUMERIC]"
      else pyCasefold (tokens.getD i.toNat "") := by
  simp only [_token_feature, if_neg hneg, if_neg hbig]

/-- C7: for byte offsets with `0 ≤ start < end ≤ byte-length(sentence)`, the
marked byte string handed to the tokenizer (before the utf-8 decoding folded
into the abstract tokenizer) is the original byte string with one one-byte
delimiter inserted immediately before offset `start` and one immediately after
offset `end`, all other bytes unchanged. -/
theorem C7_marker_insertion (bytes : List Nat) (start stop : Nat)
    (h1 : start < stop) (h2 : stop ≤ bytes.length) :
    markedBytes bytes start stop = List.insertIdx start 94 (List.insertIdx stop 94 bytes)
    ∧ (markedBytes bytes start stop).length = bytes.length + 2 := by
  have hss : start ≤ stop := Nat.le_of_lt h1
  constructor
  · have e1 : List.insertIdx stop 94 bytes = bytes.take stop ++ 94 :: bytes.drop stop :=
      insertIdx_take_drop bytes stop h2
    have hlen1 : start ≤ (bytes.take stop ++ 94 :: bytes.drop stop).length := by
      simp
      omega
    have e2 := insertIdx_take_drop (bytes.take stop ++ 94 :: bytes.drop stop) start hlen1
    rw [e1, e2]
    have h3 : min stop bytes.length = stop := Nat.min_eq_left h2
    have h4 : start - stop = 0 := by omega
    have h5 : min start stop = start := Nat.min_eq_left hss
    simp [markedBytes, List.take_append_eq_append_take, List.drop_append_eq_append_drop,
      List.take_take, List.drop_take, h3, h4, h5]
  · simp [markedBytes]
    omega

/-- C7 witness: the theorem instantiated on the byte string `[1, 2, 3]` with
span `1..2`. -/
theorem C7_marker_insertion_witness :
    (1 < 2 ∧ 2 ≤ ([1, 2, 3] : List Nat).length)
    ∧ (markedBytes [1, 2, 3] 1 2 = List.insertIdx 1 94 (List.insertIdx 2 94 [1, 2, 3])
        ∧ (markedBytes [1, 2, 3] 1 2).length = ([1, 2, 3] : List Nat).length + 2) :=
  ⟨⟨by decide, by decide⟩, C7_marker_insertion [1, 2, 3] 1 2 (by decide) (by decide)⟩

/-- C10: the positional feature helper is total over all integer indices: for
every token list and index it returns a defined string, and any non-sentinel
result arises from an in-range list access (the guards make out-of-bounds
access impossible). -/
theorem C10_token_feature_total (tokens : List String) (i : Int) :
    _token_feature tokens i = "[$]" ∨ _token_feature tokens i = "[^]" ∨
      ∃ j : Fin tokens.length, (j.val : Int) = i ∧
        (_token_feature tokens i = "[NUMERIC]" ∨
          _token_feature tokens i = pyCasefold (tokens.get j)) := by
  by_cases hneg : i < 0
  · exact Or.inl (by simp [_token_feature, hneg])
  · by_cases hbig : (tokens.length : Int) ≤ i
    · exact Or.inr (Or.inl (by simp [_token_feature, hneg, hbig]))
    · refine Or.inr (Or.inr ?_)
      have hlt : i.toNat < tokens.length := by omega
      refine ⟨⟨i.toNat, hlt⟩, by simp; omega, ?_⟩
      have hget : tokens.getD i.toNat "" = tokens.get ⟨i.toNat, hlt⟩ :=
        List.getD_eq_getElem tokens "" hlt
      rw [token_feature_in_range tokens i hneg hbig, hget]
      by_cases hnum : pyIsNumeric (tokens.get ⟨i.toNat, hlt⟩)
      · exact Or.inl (by rw [if_pos hnum])
      · exact Or.inr (by rw [if_neg hnum])

/-- C6: case analysis of the positional feature value — `"[$]"` below the
range, `"[^]"` at or past the end, `"[NUMERIC]"` for an in-range all-digit
token, otherwise the token's case-folded text; in particular a target at
index 0 sees `t-1 = t-2 = "[$]"` and a target at the last index sees
`t+1 = t+2 = "[^]"`. -/
theorem C6_positional_feature (tokens : List String) (i : Int) :
    (i < 0 → _token_feature tokens i = "[$]")
    ∧ ((tokens.length : Int) ≤ i → _token_feature tokens i = "[^]")
    ∧ (∀ j : Fin tokens.length, (j.val : Int) = i →
        _token_feature tokens i =
          if pyIsNumeric (tokens.get j) then "[NUMERIC]" else pyCasefold (tokens.get j))
    ∧ _token_feature tokens (0 - 1) = "[$]"
    ∧ _token_feature tokens (0 - 2) = "[$]"
    ∧ _token_feature tokens ((tokens.length : Int) - 1 + 1) = "[^]"
    ∧ _token_feature tokens ((tokens.length : Int) - 1 + 2) = "[^]" := by
  have hlast1 : ((tokens.length : Int) - 1 + 1) = (tokens.length : Int) := by ring
  have hlast2 : ((tokens.length : Int) - 1 + 2) = (tokens.length : Int) + 1 := by ring
  refine ⟨token_feature_of_neg tokens i, ?_, ?_, ?_, ?_, ?_, ?_⟩
  · intro hbig
    exact token_feature_of_ge tokens i (by omega) hbig
  · intro j hj
    have hneg : ¬ i < 0 := by omega
    have hbig : ¬ (tokens.length : Int) ≤ i := by
      have := j.isLt
      omega
    have hlt : i.toNat < tokens.length := by omega
    have hj2 : i.toNat = j.val := by omega
    rw [token_feature_in_range tokens i hneg hbig]
    rw [hj2, List.getD_eq_getElem tokens "" j.isLt]
    simp only [List.get_eq_getElem]
  · exact token_feature_of_neg tokens (0 - 1) (by omega)
  · exact token_feature_of_neg tokens (0 - 2) (by omega)
  · rw [hlast1]
    exact token_feature_of_ge tokens _ (by omega) (by omega)
  · rw [hlast2]
    exact token_feature_of_ge tokens _ (by omega) (by omega)

/-- C6 witness: the theorem instantiated on the token list `["Abc", "42"]` at
each kind of index. -/
theorem C6_positional_feature_witness :
    _token_feature ["Abc", "42"] (0 - 1) = "[$]"
    ∧ _token_feature ["Abc", "42"] 2 = "[^]"
    ∧ _token_feature ["Abc", "42"] 1 = "[NUMERIC]"
    ∧ _token_feature ["Abc", "42"] 0 = "abc" := by
  refine ⟨(C6_positional_feature ["Abc", "42"] (0 - 1)).2.2.2.1, ?_, ?_, ?_⟩
  · exact (C6_positional_feature ["Abc", "42"] 2).2.1 (by decide)
  · have h := (C6_positional_feature ["Abc", "42"] 1).2.2.1 ⟨1, by decide⟩ (by decide)
    rw [h]
    decide
  · have h := (C6_positional_feature ["Abc", "42"] 0).2.2.1 ⟨0, by decide⟩ (by decide)
    rw [h]
    decide

/-- C4 counterexample: the claim that micro and macro accuracy differ whenever
file sizes are unequal fails on the per-file results `[(5,10),(1,2)]`, where
the sizes 10 and 2 are unequal but both accuracies are 1/2. -/
theorem C4_counterexample :
    microAccuracy [5, 1] [10, 2] = meanAccuracy [5, 1] [10, 2] ∧ (10 : Nat) ≠ 2 := by
  constructor
  · norm_num [microAccuracy, meanAccuracy, pyMean, perFileAccuracies, List.zip]
  · decide

/-- C4 as amended: micro accuracy is total correct over total size, macro
accuracy is the arithmetic mean of per-file ratios; on `[(8,10),(1,2)]` they
are 0.75 and 0.65, which differ — but unequal file sizes alone do not force a
difference. -/
theorem C4_accuracy_aggregation (results : List (Nat × Nat)) :
    microAccuracy (results.map Prod.fst) (results.map Prod.snd)
        = (((results.map Prod.fst).sum : Rat)) / (((results.map Prod.snd).sum : Rat))
    ∧ meanAccuracy (results.map Prod.fst) (results.map Prod.snd)
        = (results.map (fun p => ((p.1 : Rat)) / ((p.2 : Rat)))).sum / ((results.length : Rat))
    ∧ microAccuracy [8, 1] [10, 2] = 3 / 4
    ∧ meanAccuracy [8, 1] [10, 2] = 13 / 20
    ∧ microAccuracy [8, 1] [10, 2] ≠ meanAccuracy [8, 1] [10, 2] := by
  refine ⟨rfl, ?_, by norm_num [microAccuracy],
    by norm_num [meanAccuracy, pyMean, perFileAccuracies, List.zip],
    by norm_num [microAccuracy, meanAccuracy, pyMean, perFileAccuracies, List.zip]⟩
  simp [meanAccuracy, pyMean, perFileAccuracies, List.zip_map']

/-- C1 counterexample: the claim that more than one qualifying token makes
`extract_features` fail is false — with two tokens each containing exactly two
delimiters, extraction succeeds and uses the first. -/
theorem C1_counterexample :
    ((constTok ["^a^", "^b^"] (markedBytes [] 0 0)).countP
        (fun tok => caretCount tok == 2)) = 2
    ∧ extract_features (constTok ["^a^", "^b^"]) [] "x" 0 0
        = Except.ok (buildFeatures ["^a^", "^b^"] 0) := by
  exact ⟨by decide, rfl⟩

/-- C1 as amended: after marker insertion and tokenization the extractor
identifies as target the first token containing exactly two delimiter
characters; it fails with `TargetNotFoundError` exactly when no token contains
two delimiters (covering the zero-marker and split-delimiter cases), and a
successful call returns the features of the first qualifying token — more than
one qualifying token does not cause a failure. -/
theorem C1_target_selection (tokenize : List Nat → List String) (s : List Nat)
    (hg : String) (a b : Nat) :
    (extract_features tokenize s hg a b
        = Except.error (ExtractError.TargetNotFoundError hg)
      ↔ ∀ tok ∈ tokenize (markedBytes s a b), caretCount tok ≠ 2)
    ∧ ∀ fv, extract_features tokenize s hg a b = Except.ok fv →
        ∃ t, findTarget (tokenize (markedBytes s a b)) = some t
          ∧ caretCount ((tokenize (markedBytes s a b)).getD t "") = 2
          ∧ (∀ j, j < t → caretCount ((tokenize (markedBytes s a b)).getD j "") ≠ 2)
          ∧ fv = buildFeatures (tokenize (markedBytes s a b)) t := by
  constructor
  · rw [← findTarget_eq_none_iff]
    cases hft : findTarget (tokenize (markedBytes s a b)) with
    | none => simp [extract_features, hft]
    | some t => simp [extract_features, hft]
  · intro fv hok
    rw [extract_features_eq_ok_iff] at hok
    obtain ⟨t, hft, rfl⟩ := hok
    obtain ⟨h1, h2, h3⟩ := findTarget_spec _ t hft
    exact ⟨t, hft, h2, h3, rfl⟩

/-- C1 witness: with a tokenizer producing no delimiter-bearing token, the
extractor fails with `TargetNotFoundError`. -/
theorem C1_target_selection_witness :
    extract_features (constTok ["plain"]) [] "x" 0 0
      = Except.error (ExtractError.TargetNotFoundError "x") :=
  (C1_target_selection (constTok ["plain"]) [] "x" 0 0).1.mpr (by decide)

/-- C3: in every successful extraction the feature keyed `t-2^t+1` joins the
value of `t-2` with itself — the `t-2` value duplicated, not joined with
`t+1`. -/
theorem C3_duplicated_feature (tokenize : List Nat → List String) (s : List Nat)
    (hg : String) (a b : Nat) (fv : List (String × String))
    (hok : extract_features tokenize s hg a b = Except.ok fv) :
    ∃ v, fv.lookup "t-2" = some v ∧ fv.lookup "t-2^t+1" = some (v ++ "^" ++ v) := by
  rw [extract_features_eq_ok_iff] at hok
  obtain ⟨t, hft, rfl⟩ := hok
  exact ⟨_, rfl, rfl⟩

/-- C3 witness: the theorem on a one-token scenario. -/
theorem C3_duplicated_feature_witness :
    ∃ v, (buildFeatures ["^a^"] 0).lookup "t-2" = some v
      ∧ (buildFeatures ["^a^"] 0).lookup "t-2^t+1" = some (v ++ "^" ++ v) :=
  C3_duplicated_feature (constTok ["^a^"]) [] "x" 0 0 (buildFeatures ["^a^"] 0) rfl

/-- C5: whenever the tokenization of the marked sentence keeps the bracketed
target as a single token (some token carries both delimiters, the rendering of
"the span exactly brackets a token the tokenizer will not split further"),
`extract_features` succeeds and its key set is exactly the fixed eight keys in
insertion order. -/
theorem C5_fixed_keyset (tokenize : List Nat → List String) (s : List Nat)
    (hg : String) (a b : Nat)
    (hex : ∃ tok ∈ tokenize (markedBytes s a b), caretCount tok = 2) :
    ∃ fv, extract_features tokenize s hg a b = Except.ok fv
      ∧ fv.map Prod.fst
          = ["t-1", "t-2", "t+1", "t+2", "t-2^t+1", "t+1^t+2", "t-1^t+1", "cap(t)"] := by
  cases hft : findTarget (tokenize (markedBytes s a b)) with
  | none =>
    rw [findTarget_eq_none_iff] at hft
    obtain ⟨tok, htok, hc⟩ := hex
    exact absurd hc (hft tok htok)
  | some t =>
    refine ⟨buildFeatures (tokenize (markedBytes s a b)) t, ?_, rfl⟩
    rw [extract_features_eq_ok_iff]
    exact ⟨t, hft, rfl⟩

/-- C5 witness: the theorem on a tokenizer that keeps `^record^` intact. -/
theorem C5_fixed_keyset_witness :
    (∃ tok ∈ constTok ["^record^"] (markedBytes [] 0 0), caretCount tok = 2)
    ∧ ∃ fv, extract_features (constTok ["^record^"]) [] "record" 0 0 = Except.ok fv
        ∧ fv.map Prod.fst
            = ["t-1", "t-2", "t+1", "t+2", "t-2^t+1", "t+1^t+2", "t-1^t+1", "cap(t)"] :=
  ⟨by decide, C5_fixed_keyset (constTok ["^record^"]) [] "record" 0 0 (by decide)⟩

/-- C2 counterexample: the claim that the surface form classified by `cap(t)`
has both delimiters and underscores removed fails on the successful extraction
of the token `A^b^`: the code keeps the delimiters, so the classified form is
`A^b^` rather than `Ab`. -/
theorem C2_counterexample :
    extract_features (constTok ["A^b^"]) [] "x" 0 0
        = Except.ok (buildFeatures ["A^b^"] 0)
    ∧ cleanTarget ["A^b^"] 0 = "A^b^"
    ∧ specCleanTarget "A^b^" = "Ab"
    ∧ cleanTarget ["A^b^"] 0 ≠ specCleanTarget "A^b^" := by
  refine ⟨rfl, by decide, by decide, by decide⟩

/-- C2 as amended: in every successful extraction the value classified by
`cap(t)` is the target token with only the underscore artifact characters
removed; the delimiter characters are retained (their count is unchanged),
and the code's form agrees with the spec's fully stripped form exactly when
the target token contains no delimiter character. -/
theorem C2_clean_target (tokenize : List Nat → List String) (s : List Nat)
    (hg : String) (a b : Nat) (fv : List (String × String))
    (hok : extract_features tokenize s hg a b = Except.ok fv) :
    ∃ t, findTarget (tokenize (markedBytes s a b)) = some t
      ∧ fv.lookup "cap(t)"
          = some (capClass (cleanTarget (tokenize (markedBytes s a b)) t))
      ∧ (∀ c ∈ (cleanTarget (tokenize (markedBytes s a b)) t).toList,
          c ≠ Char.ofNat 95)
      ∧ caretCount (cleanTarget (tokenize (markedBytes s a b)) t)
          = caretCount ((tokenize (markedBytes s a b)).getD t "")
      ∧ (Char.ofNat 94 ∉ ((tokenize (markedBytes s a b)).getD t "").toList →
          cleanTarget (tokenize (markedBytes s a b)) t
            = specCleanTarget ((tokenize (markedBytes s a b)).getD t "")) := by
  rw [extract_features_eq_ok_iff] at hok
  obtain ⟨t, hft, rfl⟩ := hok
  refine ⟨t, hft, rfl, ?_, ?_, ?_⟩
  · intro c hc
    have hc2 : c ∈ ((tokenize (markedBytes s a b)).getD t "").toList.filter
        (fun c => !(c == Char.ofNat 95)) := hc
    have := (List.mem_filter.mp hc2).2
    simpa using this
  · unfold caretCount cleanTarget
    exact List.count_filter (by decide)
  · intro hnot
    unfold cleanTarget specCleanTarget
    congr 1
    congr 1
    exact (List.filter_eq_self.mpr (fun c hc => by
      simp only [Bool.not_eq_true']
      exact beq_eq_false_iff_ne.mpr (fun hcc => hnot (hcc ▸ hc)))).symm

/-- C2 witness: the theorem on a tokenizer producing the single token
`^a_b^`. -/
theorem C2_clean_target_witness :
    ∃ t, findTarget (constTok ["^a_b^"] (markedBytes [] 0 0)) = some t
      ∧ (buildFeatures ["^a_b^"] 0).lookup "cap(t)"
          = some (capClass (cleanTarget (constTok ["^a_b^"] (markedBytes [] 0 0)) t))
      ∧ (∀ c ∈ (cleanTarget (constTok ["^a_b^"] (markedBytes [] 0 0)) t).toList,
          c ≠ Char.ofNat 95)
      ∧ caretCount (cleanTarget (constTok ["^a_b^"] (markedBytes [] 0 0)) t)
          = caretCount ((constTok ["^a_b^"] (markedBytes [] 0 0)).getD t "")
      ∧ (Char.ofNat 94 ∉ ((constTok ["^a_b^"] (markedBytes [] 0 0)).getD t "").toList →
          cleanTarget (constTok ["^a_b^"] (markedBytes [] 0 0)) t
            = specCleanTarget ((constTok ["^a_b^"] (markedBytes [] 0 0)).getD t "")) :=
  C2_clean_target (constTok ["^a_b^"]) [] "x" 0 0 (buildFeatures ["^a_b^"] 0) rfl

/-- C8 counterexample: the claim classifies the fully stripped surface form,
but the code classifies the delimiter-carrying token: on the token `A^b^` the
spec's chain yields `"title"` (for the stripped form `Ab`) while the code
returns `"na"`. -/
theorem C8_counterexample :
    extract_features (constTok ["A^b^"]) [] "g" 0 0
        = Except.ok (buildFeatures ["A^b^"] 0)
    ∧ (buildFeatures ["A^b^"] 0).lookup "cap(t)" = some "na"
    ∧ specCapClass (specCleanTarget "A^b^") = "title"
    ∧ some "na" ≠ some "title" := by
  refine ⟨rfl, by decide, by decide, by decide⟩

/-- C8 as amended: `cap(t)` classifies the underscore-stripped target token
(delimiters retained): `"upper"` when it has a cased character and no
lowercase one, `"lower"` when it has a cased character and no uppercase one,
`"title"` when it is title-cased in Python's sense, else `"na"`; the tokens
`^RECORD^`, `^record^`, `^Record^`, `^ReCoRd^` classify as `"upper"`,
`"lower"`, `"title"`, `"na"` respectively. -/
theorem C8_cap_feature :
    (∀ (tokenize : List Nat → List String) (s : List Nat) (hg : String)
        (a b : Nat) (fv : List (String × String)),
      extract_features tokenize s hg a b = Except.ok fv →
      ∃ t, findTarget (tokenize (markedBytes s a b)) = some t
        ∧ fv.lookup "cap(t)"
            = some (capClass (cleanTarget (tokenize (markedBytes s a b)) t)))
    ∧ capClass "^RECORD^" = "upper"
    ∧ capClass "^record^" = "lower"
    ∧ capClass "^Record^" = "title"
    ∧ capClass "^ReCoRd^" = "na" := by
  refine ⟨?_, by decide, by decide, by decide, by decide⟩
  intro tokenize s hg a b fv hok
  rw [extract_features_eq_ok_iff] at hok
  obtain ⟨t, hft, rfl⟩ := hok
  exact ⟨t, hft, rfl⟩

/-- C8 witness: the classification part of the theorem on a tokenizer keeping
`^Record^` intact. -/
theorem C8_cap_feature_witness :
    ∃ t, findTarget (constTok ["^Record^"] (markedBytes [] 0 0)) = some t
      ∧ (buildFeatures ["^Record^"] 0).lookup "cap(t)"
          = some (capClass (cleanTarget (constTok ["^Record^"] (markedBytes [] 0 0)) t)) :=
  C8_cap_feature.1 (constTok ["^Record^"]) [] "r" 0 0 (buildFeatures ["^Record^"] 0) rfl

theorem eff_ok_spec (tokenize : List Nat → List String) :
    ∀ (rows : List Row) (fvs : List (List (String × String))) (labels : List String),
      extract_features_file tokenize rows = Except.ok (fvs, labels) →
      fvs.length = rows.length ∧ labels = rows.map Row.wordid ∧
        ∀ i : Fin rows.length,
          extract_features tokenize (rows.get i).sentence (rows.get i).homograph
              (rows.get i).start (rows.get i).stop = Except.ok (fvs.getD i.val [])
  | [], fvs, labels, h => by
    simp only [extract_features_file, Except.ok.injEq, Prod.mk.injEq] at h
    obtain ⟨h1, h2⟩ := h
    subst h1
    subst h2
    exact ⟨rfl, rfl, fun i => absurd i.isLt (by simp)⟩
  | row :: rest, fvs, labels, h => by
    unfold extract_features_file at h
    cases hext : extract_features tokenize row.sentence row.homograph row.start row.stop with
    | error e => rw [hext] at h; exact absurd h (by simp)
    | ok fv =>
      rw [hext] at h
      cases hrest : extract_features_file tokenize rest with
      | error e => rw [hrest] at h; exact absurd h (by simp)
      | ok p =>
        obtain ⟨fvs2, labels2⟩ := p
        rw [hrest] at h
        simp only [Except.ok.injEq, Prod.mk.injEq] at h
        obtain ⟨h1, h2⟩ := h
        subst h1
        subst h2
        obtain ⟨ih1, ih2, ih3⟩ := eff_ok_spec tokenize rest fvs2 labels2 hrest
        refine ⟨by simp [ih1], by simp [ih2], ?_⟩
        intro i
        obtain ⟨v, hv⟩ := i
        cases v with
        | zero => simpa using hext
        | succ j => simpa using ih3 ⟨j, by simpa using hv⟩

theorem eff_error_prop (tokenize : List Nat → List String) :
    ∀ (pre : List Row) (row : Row) (post : List Row) (e : ExtractError),
      (∀ r ∈ pre, ∃ fv,
        extract_features tokenize r.sentence r.homograph r.start r.stop = Except.ok fv) →
      extract_features tokenize row.sentence row.homograph row.start row.stop
        = Except.error e →
      extract_features_file tokenize (pre ++ row :: post) = Except.error e
  | [], row, post, e, _, herr => by
    simp only [List.nil_append]
    unfold extract_features_file
    rw [herr]
  | r :: pre, row, post, e, hpre, herr => by
    obtain ⟨fv, hfv⟩ := hpre r (by simp)
    have ih := eff_error_prop tokenize pre row post e
      (fun r2 hr2 => hpre r2 (by simp [hr2])) herr
    simp only [List.cons_append]
    unfold extract_features_file
    rw [hfv, ih]

/-- C9: a successful corpus pass returns one feature vector and one label per
row in reader order (equal lengths), each feature vector being the extraction
of its row; and when all rows before some failing row succeed, the whole pass
fails with that row's error — no partial result. -/
theorem C9_file_pass (tokenize : List Nat → List String) (rows : List Row) :
    (∀ fvs labels, extract_features_file tokenize rows = Except.ok (fvs, labels) →
      fvs.length = rows.length ∧ labels = rows.map Row.wordid ∧
        ∀ i : Fin rows.length,
          extract_features tokenize (rows.get i).sentence (rows.get i).homograph
              (rows.get i).start (rows.get i).stop = Except.ok (fvs.getD i.val []))
    ∧ ∀ (pre : List Row) (row : Row) (post : List Row) (e : ExtractError),
        rows = pre ++ row :: post →
        (∀ r ∈ pre, ∃ fv,
          extract_features tokenize r.sentence r.homograph r.start r.stop = Except.ok fv) →
        extract_features tokenize row.sentence row.homograph row.start row.stop
          = Except.error e →
        extract_features_file tokenize rows = Except.error e := by
  constructor
  · exact fun fvs labels h => eff_ok_spec tokenize rows fvs labels h
  · intro pre row post e hrows hpre herr
    rw [hrows]
    exact eff_error_prop tokenize pre row post e hpre herr

/-- C9 witness: under `twoTok` the pass over `[rowA, rowB]` fails with the
`TargetNotFoundError` of `rowB`, although `rowA` succeeds. -/
theorem C9_file_pass_witness :
    extract_features twoTok rowB.sentence rowB.homograph rowB.start rowB.stop
        = Except.error (ExtractError.TargetNotFoundError "b")
    ∧ extract_features_file twoTok [rowA, rowB]
        = Except.error (ExtractError.TargetNotFoundError "b") := by
  refine ⟨rfl, ?_⟩
  refine (C9_file_pass twoTok [rowA, rowB]).2 [rowA] rowB []
    (ExtractError.TargetNotFoundError "b") rfl ?_ rfl
  intro r hr
  have : r = rowA := by simpa using hr
  subst this
  exact ⟨buildFeatures ["^a^"] 0, rfl⟩
